import Mathlib

/-!
Shallow embedding of the audio subsystem of the Commander X16 emulator
(`src/audio.c`): clock-domain conversion (`audio_render`), the circular
buffer queue shared between producer and playback callback, the
three-source mixer, and the session lifecycle (`audio_init`,
`audio_close`, `audio_callback`).

Modelling conventions:
* The build is the non-Emscripten one, so `SAMPLES_PER_BUFFER = 256`.
* C `int` counters that only ever hold small non-negative values
  (`cpu_clks`, `vera_clks`, indices, counts) are modelled as `Nat`;
  16-bit samples and the mixing intermediate are modelled as `Int`,
  with the narrowing store into `int16_t` made explicit (`int16wrap`).
* The SDL device id is a `Nat` (`0` = no open device, matching the C
  code's `audio_dev == 0` tests).
* Host effects (stderr reports, memset/memcpy into the output stream,
  `exit()`) are reified in the `HostAction` result of each operation.
* The three sound chips are external collaborators; a render call
  receives their output frames as an oracle stream indexed by trigger.
* `malloc` of the buffer slots is modelled as succeeding (allocation
  failure is a host condition outside the state machine); `free` in
  `audio_close` releases host memory and is not visible in the state.
-/

/-- SAMPLES_PER_BUFFER for the default (non-Emscripten) build. -/
def samplesPerBuffer : Nat := 256

/-- An audio frame buffer: interleaved stereo int16 samples, indexed by
sample position (positions `0 .. 2*samplesPerBuffer - 1` are meaningful). -/
abbrev Frame := Nat → Int

/-- The global state of audio.c: the device handle, the two clock
accumulators, and the circular buffer queue (`rdidx`, `wridx`,
`buf_cnt`, `num_bufs`, slot contents). -/
structure AudioState where
  audio_dev : Nat
  cpu_clks : Nat
  vera_clks : Nat
  rdidx : Nat
  wridx : Nat
  buf_cnt : Nat
  num_bufs : Nat
  buffers : Nat → Frame

/-- The C statics at program start: everything zero / no device. -/
def initialState : AudioState :=
  { audio_dev := 0, cpu_clks := 0, vera_clks := 0, rdidx := 0, wridx := 0,
    buf_cnt := 0, num_bufs := 0, buffers := fun _ _ => 0 }

/-- An open session with an empty ring of capacity `n` and zeroed
clock accumulators (the state right after a successful first
`audio_init` with effective buffer count `n`). -/
def emptyRing (n : Nat) : AudioState :=
  { audio_dev := 1, cpu_clks := 0, vera_clks := 0, rdidx := 0, wridx := 0,
    buf_cnt := 0, num_bufs := n, buffers := fun _ _ => 0 }

/-- Range predicate for a 16-bit signed sample. -/
abbrev inInt16 (x : Int) : Prop := -32768 ≤ x ∧ x ≤ 32767

/-- The narrowing conversion `(int16_t)x` of a C `int`, as two's
complement wrap-around into `[-32768, 32767]`. -/
def int16wrap (x : Int) : Int := (x + 32768) % 65536 - 32768

/-- One mixed sample, from audio.c line 180:
`buf[i] = ((int)psg_buf[i] + (int)pcm_buf[i] + (int)ym_buf[i]) / 3;`
C `/` on `int` truncates toward zero, which is `Int.tdiv`; the store
into the `int16_t` slot is the narrowing conversion. -/
def mixSample (a b c : Int) : Int := int16wrap (Int.tdiv (a + b + c) 3)

/-- The mixing loop of audio.c lines 179-181, applied pointwise. -/
def mixFrame (a b c : Frame) : Frame := fun i => mixSample (a i) (b i) (c i)

/-- Producer-side enqueue, audio.c lines 171-189: under the lock the
producer checks `buf_cnt < num_bufs`; if a slot is free it fills
`buffers[wridx]`, advances `wridx` with wrap-around, and increments
`buf_cnt`; otherwise the frame is dropped and nothing changes.
The returned Bool is `true` on Ok and `false` on Full. -/
def tryPush (st : AudioState) (f : Frame) : AudioState × Bool :=
  if st.buf_cnt < st.num_bufs then
    ({ st with
        buffers := fun j => if j = st.wridx then f else st.buffers j,
        wridx := if st.wridx + 1 = st.num_bufs then 0 else st.wridx + 1,
        buf_cnt := st.buf_cnt + 1 }, true)
  else (st, false)

/-- Consumer-side dequeue, audio.c lines 45-54: if `buf_cnt == 0`
report Empty; otherwise take `buffers[rdidx]`, advance `rdidx` with
wrap-around, decrement `buf_cnt`. -/
def tryPop (st : AudioState) : AudioState × Option Frame :=
  if st.buf_cnt = 0 then (st, none)
  else
    ({ st with
        rdidx := if st.rdidx + 1 = st.num_bufs then 0 else st.rdidx + 1,
        buf_cnt := st.buf_cnt - 1 }, some (st.buffers st.rdidx))

/-- The host-visible action an operation performs besides updating the
model state. `exitProcess` is `exit()` (used by audio_init's failure
paths); `earlyReturn` is a plain return with no output written. -/
inductive HostAction where
  | earlyReturn
  | reportMismatch
  | writeSilence
  | writeFrame (f : Frame)
  | opened (dev : Nat)
  | exitProcess (code : Int)

/-- Whether a host action terminates the process. -/
def isExit : HostAction → Bool
  | .exitProcess _ => true
  | _ => false

/-- Whether a host action fully overwrites the requested output region
(`writeSilence` is `memset(stream, 0, len)`, `writeFrame` is
`memcpy(stream, frame, len)`; every other action writes nothing). -/
def overwritesOutput : HostAction → Bool
  | .writeSilence => true
  | .writeFrame _ => true
  | _ => false

/-- The byte length the callback expects,
audio.c line 39: `2 * SAMPLES_PER_BUFFER * sizeof(int16_t)`. -/
def expectedLen : Int := 2 * (samplesPerBuffer : Int) * 2

/-- audio_callback, audio.c lines 32-55: return if no device; report
and return on a length mismatch; zero-fill on an empty ring; otherwise
pop the oldest frame and copy it out. -/
def audio_callback (st : AudioState) (len : Int) : AudioState × HostAction :=
  if st.audio_dev = 0 then (st, .earlyReturn)
  else if len ≠ expectedLen then (st, .reportMismatch)
  else
    match tryPop st with
    | (st', none) => (st', .writeSilence)
    | (st', some f) => (st', .writeFrame f)

/-- The buffer-count clamp of audio.c lines 70-77. -/
def clampNumBufs (num_audio_buffers : Int) : Int :=
  let n := num_audio_buffers
  let n := if n < 3 then 3 else n
  if 1024 < n then 1024 else n

/-- audio_close, audio.c lines 122-143: no-op when no device is open;
otherwise close the device (the slot memory is freed on the host). -/
def audio_close (st : AudioState) : AudioState :=
  if st.audio_dev = 0 then st
  else { st with audio_dev := 0 }

/-- audio_init, audio.c lines 57-120: close any open session; the
reserved selector "none" returns immediately; otherwise clamp the
buffer count, allocate the slots, and open the device. `open_result`
is the id returned by `SDL_OpenAudioDevice` (`0` = failure, on which
the code exits with code -1). -/
def audio_init (st : AudioState) (dev_name : Option String)
    (num_audio_buffers : Int) (open_result : Nat) : AudioState × HostAction :=
  let st0 := if st.audio_dev ≠ 0 then audio_close st else st
  if dev_name = some "none" then (st0, .earlyReturn)
  else
    let nb := (clampNumBufs num_audio_buffers).toNat
    let st1 := { st0 with num_bufs := nb, buffers := fun _ _ => 0 }
    if open_result = 0 then (st1, .exitProcess (-1))
    else ({ st1 with audio_dev := open_result }, .opened open_result)

/-- The render loop of audio.c lines 159-191: while a full buffer's
worth of VERA ticks has accumulated, consume `512 * SAMPLES_PER_BUFFER`
of them, render the three sources (frame `srcs k` of the oracle for the
`k`-th trigger of this call), mix, and enqueue (dropping the frame when
the ring is full). Returns the state and the number of triggers. -/
def audioRenderLoop (st : AudioState) (srcs : Nat → Frame × Frame × Frame)
    (k : Nat) : AudioState × Nat :=
  if h : 512 * samplesPerBuffer ≤ st.vera_clks then
    let st1 := { st with vera_clks := st.vera_clks - 512 * samplesPerBuffer }
    let s := srcs k
    let st2 := (tryPush st1 (mixFrame s.1 s.2.1 s.2.2)).1
    let r := audioRenderLoop st2 srcs (k + 1)
    (r.1, r.2 + 1)
  else (st, 0)
termination_by st.vera_clks
decreasing_by
  simp only [tryPush]
  split
  all_goals simp only []
  all_goals
    have hpos : 0 < 512 * samplesPerBuffer := by
      simp [samplesPerBuffer]
    omega

/-- The clock-domain conversion step of audio.c lines 152-157: add the
CPU ticks to the accumulator; when it strictly exceeds 8, convert every
whole group of 8 CPU ticks into 25 VERA ticks, keeping the remainder. -/
def clockConvert (st : AudioState) (cpu_clocks : Nat) : AudioState :=
  let cpu1 := st.cpu_clks + cpu_clocks
  if 8 < cpu1 then
    let c := cpu1 / 8
    { st with cpu_clks := cpu1 - c * 8, vera_clks := st.vera_clks + c * 25 }
  else { st with cpu_clks := cpu1 }

/-- audio_render, audio.c lines 145-192: no-op when no device is open;
otherwise run the clock conversion followed by the render loop.
Returns the state and the number of triggers. -/
def audio_render (st : AudioState) (cpu_clocks : Nat)
    (srcs : Nat → Frame × Frame × Frame) : AudioState × Nat :=
  if st.audio_dev = 0 then (st, 0)
  else audioRenderLoop (clockConvert st cpu_clocks) srcs 0

/-- A sequence of audio_render calls; returns the final state and the
total number of triggers emitted. -/
def runRender (st : AudioState) (srcs : Nat → Frame × Frame × Frame) :
    List Nat → AudioState × Nat
  | [] => (st, 0)
  | t :: rest =>
    let r := audio_render st t srcs
    let r2 := runRender r.1 srcs rest
    (r2.1, r.2 + r2.2)

/-- Push a list of frames one after the other; returns the final state
and the list of push results. -/
def pushList (st : AudioState) : List Frame → AudioState × List Bool
  | [] => (st, [])
  | f :: rest =>
    let r := tryPush st f
    let r2 := pushList r.1 rest
    (r2.1, r.2 :: r2.2)

/-- Pop `n` times; returns the final state and the list of results. -/
def popN (st : AudioState) : Nat → AudioState × List (Option Frame)
  | 0 => (st, [])
  | n + 1 =>
    let r := tryPop st
    let r2 := popN r.1 n
    (r2.1, r.2 :: r2.2)

/-- Structural invariant of the circular buffer queue: the read index
is in range, the count does not exceed the capacity, and the write
index is the read index advanced by the count (mod capacity). -/
def ringInv (st : AudioState) : Prop :=
  st.rdidx < st.num_bufs ∧ st.buf_cnt ≤ st.num_bufs ∧
    st.wridx = (st.rdidx + st.buf_cnt) % st.num_bufs

/-- Abstraction of the ring to the queued frames in FIFO order. -/
def ringItems (st : AudioState) : List Frame :=
  (List.range st.buf_cnt).map (fun i => st.buffers ((st.rdidx + i) % st.num_bufs))

/-- A constant all-zero source oracle, for concrete executions. -/
def srcsZero : Nat → Frame × Frame × Frame :=
  fun _ => (fun _ => 0, fun _ => 0, fun _ => 0)

/-! ### Helper lemmas: mixing arithmetic -/

theorem tdiv3_bounds (s : Int) (h1 : -98304 ≤ s) (h2 : s ≤ 98301) :
    -32768 ≤ Int.tdiv s 3 ∧ Int.tdiv s 3 ≤ 32767 := by
  rcases s with m | m
  · have hd : Int.tdiv (Int.ofNat m) 3 = ((m / 3 : Nat) : Int) := rfl
    rw [hd]
    rw [Int.ofNat_eq_natCast] at h1 h2
    omega
  · have hd : Int.tdiv (Int.negSucc m) 3 = -((((m + 1) / 3 : Nat)) : Int) := rfl
    rw [hd]
    rw [Int.negSucc_eq] at h1 h2
    omega

theorem int16wrap_id (x : Int) (h1 : -32768 ≤ x) (h2 : x ≤ 32767) :
    int16wrap x = x := by
  unfold int16wrap
  omega

/-- C10: for all 16-bit signed samples a, b, c the intermediate value
(a + b + c) / 3 (C truncating division in `int` arithmetic) lies in
[-32768, 32767], so the narrowing store into the int16_t slot never
wraps or changes the value. -/
theorem mix_no_narrowing_wrap (a b c : Int)
    (ha : inInt16 a) (hb : inInt16 b) (hc : inInt16 c) :
    inInt16 (Int.tdiv (a + b + c) 3) ∧
    int16wrap (Int.tdiv (a + b + c) 3) = Int.tdiv (a + b + c) 3 := by
  obtain ⟨ha1, ha2⟩ := ha
  obtain ⟨hb1, hb2⟩ := hb
  obtain ⟨hc1, hc2⟩ := hc
  have h := tdiv3_bounds (a + b + c) (by omega) (by omega)
  exact ⟨⟨h.1, h.2⟩, int16wrap_id _ h.1 h.2⟩

theorem mix_no_narrowing_wrap_witness :
    inInt16 (-32768) ∧
    (inInt16 (Int.tdiv ((-32768) + (-32768) + (-32768)) 3) ∧
      int16wrap (Int.tdiv ((-32768) + (-32768) + (-32768)) 3) =
        Int.tdiv ((-32768) + (-32768) + (-32768)) 3) :=
  ⟨by decide,
   mix_no_narrowing_wrap (-32768) (-32768) (-32768)
     (by decide) (by decide) (by decide)⟩

/-- C6: for every sample index the mixed output is the three-source
average with truncation toward zero; in particular 32767+32767+32767
gives 32767 with no overflow, three times -32768 gives the
truncate-toward-zero value of -98304/3 (which is -32768), and
3, 4, 5 give 4. -/
theorem mix_trunc_toward_zero :
    (∀ (a b c : Frame) (i : Nat),
      inInt16 (a i) → inInt16 (b i) → inInt16 (c i) →
      mixFrame a b c i = Int.tdiv (a i + b i + c i) 3) ∧
    mixSample 32767 32767 32767 = 32767 ∧
    mixSample (-32768) (-32768) (-32768) = Int.tdiv (-98304) 3 ∧
    Int.tdiv (-98304) 3 = -32768 ∧
    mixSample 3 4 5 = 4 := by
  refine ⟨?_, by decide, by decide, by decide, by decide⟩
  intro a b c i ha hb hc
  obtain ⟨ha1, ha2⟩ := ha
  obtain ⟨hb1, hb2⟩ := hb
  obtain ⟨hc1, hc2⟩ := hc
  have h := tdiv3_bounds (a i + b i + c i) (by omega) (by omega)
  simp [mixFrame, mixSample, int16wrap_id _ h.1 h.2]

theorem mix_trunc_toward_zero_witness :
    inInt16 3 ∧ inInt16 4 ∧ inInt16 5 ∧
    mixFrame (fun _ => 3) (fun _ => 4) (fun _ => 5) 0 = Int.tdiv (3 + 4 + 5) 3 :=
  ⟨by decide, by decide, by decide,
   mix_trunc_toward_zero.1 (fun _ => 3) (fun _ => 4) (fun _ => 5) 0
     (by decide) (by decide) (by decide)⟩

/-! ### Helper lemmas: initialization -/

/-- C9: at initialization the requested buffer count is clamped to
[3, 1024]: 1 becomes 3, 5000 becomes 1024, 3 stays 3, and any in-range
request is used unchanged; the state after a non-disabled audio_init
carries exactly the clamped count. -/
theorem buffer_count_clamp :
    clampNumBufs 1 = 3 ∧ clampNumBufs 5000 = 1024 ∧ clampNumBufs 3 = 3 ∧
    (∀ n : Int, 3 ≤ n → n ≤ 1024 → clampNumBufs n = n) ∧
    (∀ (st : AudioState) (name : Option String) (n : Int) (d : Nat),
      name ≠ some "none" →
      (audio_init st name n d).1.num_bufs = (clampNumBufs n).toNat) := by
  refine ⟨by decide, by decide, by decide, ?_, ?_⟩
  · intro n h1 h2
    simp only [clampNumBufs]
    omega
  · intro st name n d hname
    simp only [audio_init, if_neg hname]
    split <;> rfl

theorem buffer_count_clamp_witness :
    ((3 : Int) ≤ 7 ∧ (7 : Int) ≤ 1024 ∧ clampNumBufs 7 = 7) ∧
    (some "card" ≠ some "none" ∧
      (audio_init initialState (some "card") 7 1).1.num_bufs =
        (clampNumBufs 7).toNat) :=
  ⟨⟨by decide, by decide, buffer_count_clamp.2.2.2.1 7 (by decide) (by decide)⟩,
   ⟨by decide,
    buffer_count_clamp.2.2.2.2 initialState (some "card") 7 1 (by decide)⟩⟩

/-! ### Helper lemmas: the circular buffer queue -/

theorem wrapIdx_eq_mod (i n : Nat) (h : i < n) :
    (if i + 1 = n then 0 else i + 1) = (i + 1) % n := by
  split
  · rename_i he
    rw [he, Nat.mod_self]
  · rw [Nat.mod_eq_of_lt (by omega)]

theorem tryPush_full (st : AudioState) (f : Frame)
    (h : ¬ st.buf_cnt < st.num_bufs) : tryPush st f = (st, false) := by
  simp [tryPush, h]

theorem tryPop_empty (st : AudioState) (h : st.buf_cnt = 0) :
    tryPop st = (st, none) := by
  simp [tryPop, h]


theorem tryPush_ok (st : AudioState) (f : Frame)
    (hinv : ringInv st) (hcnt : st.buf_cnt < st.num_bufs) :
    (tryPush st f).2 = true ∧
    ringInv (tryPush st f).1 ∧
    ringItems (tryPush st f).1 = ringItems st ++ [f] ∧
    (tryPush st f).1.buf_cnt = st.buf_cnt + 1 ∧
    (tryPush st f).1.num_bufs = st.num_bufs ∧
    (tryPush st f).1.rdidx = st.rdidx := by
  obtain ⟨hrd, hle, hwr⟩ := hinv
  have hN : 0 < st.num_bufs := by omega
  have hwlt : st.wridx < st.num_bufs := by
    rw [hwr]; exact Nat.mod_lt _ hN
  refine ⟨?_, ⟨?_, ?_, ?_⟩, ?_, ?_, ?_, ?_⟩
  · simp [tryPush, hcnt]
  · simp only [tryPush, if_pos hcnt]
    exact hrd
  · simp only [tryPush, if_pos hcnt]
    omega
  · simp only [tryPush, if_pos hcnt]
    rw [wrapIdx_eq_mod _ _ hwlt, hwr, Nat.mod_add_mod, Nat.add_assoc]
  · simp only [ringItems, tryPush, if_pos hcnt]
    rw [List.range_succ, List.map_append, List.map_cons, List.map_nil]
    congr 1
    · apply List.map_congr_left
      intro i hi
      have hilt : i < st.buf_cnt := List.mem_range.mp hi
      have hne : (st.rdidx + i) % st.num_bufs ≠ st.wridx := by
        rw [hwr]
        intro hcontra
        have hdvd : st.num_bufs ∣ (st.rdidx + st.buf_cnt) - (st.rdidx + i) :=
          (Nat.modEq_iff_dvd' (by omega)).mp hcontra
        have := Nat.le_of_dvd (by omega) hdvd
        omega
      simp [hne]
    · rw [← hwr]
      simp
  · simp [tryPush, hcnt]
  · simp [tryPush, hcnt]
  · simp [tryPush, hcnt]

theorem tryPop_some (st : AudioState)
    (hinv : ringInv st) (hcnt : st.buf_cnt ≠ 0) :
    (tryPop st).2 = some (st.buffers st.rdidx) ∧
    ringInv (tryPop st).1 ∧
    ringItems st = st.buffers st.rdidx :: ringItems (tryPop st).1 ∧
    (tryPop st).1.buf_cnt = st.buf_cnt - 1 ∧
    (tryPop st).1.num_bufs = st.num_bufs ∧
    (tryPop st).1.buffers = st.buffers := by
  obtain ⟨hrd, hle, hwr⟩ := hinv
  have hN : 0 < st.num_bufs := by omega
  obtain ⟨c, hc⟩ : ∃ c, st.buf_cnt = c + 1 := ⟨st.buf_cnt - 1, by omega⟩
  refine ⟨?_, ⟨?_, ?_, ?_⟩, ?_, ?_, ?_, ?_⟩
  · simp [tryPop, hcnt]
  · simp only [tryPop, if_neg hcnt]
    rw [wrapIdx_eq_mod _ _ hrd]
    exact Nat.mod_lt _ hN
  · simp only [tryPop, if_neg hcnt]
    omega
  · simp only [tryPop, if_neg hcnt]
    rw [wrapIdx_eq_mod _ _ hrd, hwr, Nat.mod_add_mod]
    have harith : st.rdidx + 1 + (st.buf_cnt - 1) = st.rdidx + st.buf_cnt := by
      omega
    rw [harith]
  · simp only [ringItems, tryPop, if_neg hcnt]
    rw [hc]
    rw [List.range_succ_eq_map, List.map_cons, List.map_map, Nat.add_sub_cancel]
    congr 1
    · rw [Nat.add_zero, Nat.mod_eq_of_lt hrd]
    · apply List.map_congr_left
      intro i hi
      simp only [Function.comp_apply]
      rw [wrapIdx_eq_mod _ _ hrd, Nat.mod_add_mod]
      have harith : st.rdidx + 1 + i = st.rdidx + Nat.succ i := by omega
      rw [harith]
  · simp [tryPop, hcnt]
  · simp [tryPop, hcnt]
  · simp [tryPop, hcnt]

theorem pushList_ok (fs : List Frame) : ∀ st, ringInv st →
    st.buf_cnt + fs.length ≤ st.num_bufs →
    (pushList st fs).2 = List.replicate fs.length true ∧
    ringInv (pushList st fs).1 ∧
    ringItems (pushList st fs).1 = ringItems st ++ fs ∧
    (pushList st fs).1.buf_cnt = st.buf_cnt + fs.length ∧
    (pushList st fs).1.num_bufs = st.num_bufs := by
  induction fs with
  | nil =>
    intro st hinv hle
    simpa [pushList] using hinv
  | cons f rest ih =>
    intro st hinv hle
    simp only [List.length_cons] at hle
    have hcnt : st.buf_cnt < st.num_bufs := by omega
    have hp := tryPush_ok st f hinv hcnt
    have ihx := ih (tryPush st f).1 hp.2.1 (by
      rw [hp.2.2.2.1, hp.2.2.2.2.1]; omega)
    simp only [pushList, List.length_cons]
    refine ⟨?_, ihx.2.1, ?_, ?_, ?_⟩
    · rw [hp.1, ihx.1, List.replicate_succ]
    · rw [ihx.2.2.1, hp.2.2.1]
      simp
    · rw [ihx.2.2.2.1, hp.2.2.2.1]
      omega
    · rw [ihx.2.2.2.2, hp.2.2.2.2.1]

theorem popN_drain (n : Nat) : ∀ st, ringInv st → st.buf_cnt = n →
    (popN st n).2 = (ringItems st).map some ∧
    ringInv (popN st n).1 ∧
    (popN st n).1.buf_cnt = 0 ∧
    (popN st n).1.num_bufs = st.num_bufs := by
  induction n with
  | zero =>
    intro st hinv h0
    simpa [popN, ringItems, h0] using hinv
  | succ c ih =>
    intro st hinv hc
    have hp := tryPop_some st hinv (by omega)
    have hcnt' : (tryPop st).1.buf_cnt = c := by
      rw [hp.2.2.2.1]; omega
    have ihx := ih (tryPop st).1 hp.2.1 hcnt'
    simp only [popN]
    refine ⟨?_, ihx.2.1, ihx.2.2.1, ?_⟩
    · rw [hp.1, ihx.1, hp.2.2.1, List.map_cons]
    · rw [ihx.2.2.2, hp.2.2.2.2.1]

/-- C7: starting from an empty ring of effective capacity N, N pushes
all succeed; one further push returns Full and leaves the ring state
(count, indices, stored slots) unchanged (drop-newest); then N pops
return exactly the N pushed frames in FIFO order, and the next pop
returns Empty. -/
theorem ring_fifo_scenario (N : Nat) (hN : 3 ≤ N) (fs : List Frame)
    (hlen : fs.length = N) (g : Frame) :
    (pushList (emptyRing N) fs).2 = List.replicate N true ∧
    tryPush (pushList (emptyRing N) fs).1 g =
      ((pushList (emptyRing N) fs).1, false) ∧
    (popN (pushList (emptyRing N) fs).1 N).2 = fs.map some ∧
    tryPop (popN (pushList (emptyRing N) fs).1 N).1 =
      ((popN (pushList (emptyRing N) fs).1 N).1, none) := by
  have hinv0 : ringInv (emptyRing N) := by
    refine ⟨?_, ?_, ?_⟩ <;> simp [emptyRing]
    omega
  have hitems0 : ringItems (emptyRing N) = [] := by
    simp [ringItems, emptyRing]
  have hle : (emptyRing N).buf_cnt + fs.length ≤ (emptyRing N).num_bufs := by
    simp [emptyRing, hlen]
  have hp := pushList_ok fs (emptyRing N) hinv0 hle
  have hcntN : (pushList (emptyRing N) fs).1.buf_cnt = N := by
    rw [hp.2.2.2.1]
    simp [emptyRing, hlen]
  have hnumN : (pushList (emptyRing N) fs).1.num_bufs = N := by
    rw [hp.2.2.2.2]
    simp [emptyRing]
  have hd := popN_drain N (pushList (emptyRing N) fs).1 hp.2.1 hcntN
  refine ⟨?_, ?_, ?_, ?_⟩
  · rw [hp.1, hlen]
  · exact tryPush_full _ g (by omega)
  · rw [hd.1, hp.2.2.1, hitems0, List.nil_append]
  · exact tryPop_empty _ hd.2.2.1

theorem ring_fifo_scenario_witness :
    (pushList (emptyRing 3) [fun _ => 1, fun _ => 2, fun _ => 3]).2 =
      List.replicate 3 true ∧
    tryPush (pushList (emptyRing 3) [fun _ => 1, fun _ => 2, fun _ => 3]).1
        (fun _ => 4) =
      ((pushList (emptyRing 3) [fun _ => 1, fun _ => 2, fun _ => 3]).1, false) ∧
    (popN (pushList (emptyRing 3) [fun _ => 1, fun _ => 2, fun _ => 3]).1 3).2 =
      [fun _ => 1, fun _ => 2, fun _ => 3].map some ∧
    tryPop (popN (pushList (emptyRing 3)
        [fun _ => 1, fun _ => 2, fun _ => 3]).1 3).1 =
      ((popN (pushList (emptyRing 3)
        [fun _ => 1, fun _ => 2, fun _ => 3]).1 3).1, none) :=
  ring_fifo_scenario 3 (by norm_num)
    [fun _ => 1, fun _ => 2, fun _ => 3] (by simp) (fun _ => 4)

/-- C5 counterexample: with effective capacity 3, performing
capacity-1 = 2 successful pushes does not make the next push return
Full: the third push succeeds as well, refuting the claim. -/
theorem ring_capacity_cex :
    (pushList (emptyRing 3) [fun _ => 1, fun _ => 2]).2 = [true, true] ∧
    (tryPush (pushList (emptyRing 3) [fun _ => 1, fun _ => 2]).1
      (fun _ => 3)).2 = true := by
  constructor <;> rfl

/-- C5 (amended): starting from an empty ring of effective capacity N,
N-1 pushes succeed, and the next (Nth) push also succeeds — the ring
holds N frames; only the push after that (the (N+1)th) returns Full;
popping an empty ring returns Empty. -/
theorem ring_capacity_boundary (N : Nat) (hN : 3 ≤ N) (fs : List Frame)
    (hlen : fs.length = N - 1) (f g : Frame) :
    (pushList (emptyRing N) fs).2 = List.replicate (N - 1) true ∧
    (tryPush (pushList (emptyRing N) fs).1 f).2 = true ∧
    tryPush (tryPush (pushList (emptyRing N) fs).1 f).1 g =
      ((tryPush (pushList (emptyRing N) fs).1 f).1, false) ∧
    tryPop (emptyRing N) = (emptyRing N, none) := by
  have hinv0 : ringInv (emptyRing N) := by
    refine ⟨?_, ?_, ?_⟩ <;> simp [emptyRing]
    omega
  have hle : (emptyRing N).buf_cnt + fs.length ≤ (emptyRing N).num_bufs := by
    simp [emptyRing, hlen]
  have hp := pushList_ok fs (emptyRing N) hinv0 hle
  have hcnt1 : (pushList (emptyRing N) fs).1.buf_cnt = N - 1 := by
    rw [hp.2.2.2.1]
    simp [emptyRing, hlen]
  have hnum1 : (pushList (emptyRing N) fs).1.num_bufs = N := by
    rw [hp.2.2.2.2]
    simp [emptyRing]
  have hq := tryPush_ok (pushList (emptyRing N) fs).1 f hp.2.1 (by omega)
  refine ⟨?_, hq.1, ?_, ?_⟩
  · rw [hp.1, hlen]
  · exact tryPush_full _ g (by omega)
  · exact tryPop_empty _ (by simp [emptyRing])

theorem ring_capacity_boundary_witness :
    (pushList (emptyRing 3) [fun _ => 5, fun _ => 6]).2 =
      List.replicate (3 - 1) true ∧
    (tryPush (pushList (emptyRing 3) [fun _ => 5, fun _ => 6]).1
      (fun _ => 7)).2 = true ∧
    tryPush (tryPush (pushList (emptyRing 3) [fun _ => 5, fun _ => 6]).1
        (fun _ => 7)).1 (fun _ => 8) =
      ((tryPush (pushList (emptyRing 3) [fun _ => 5, fun _ => 6]).1
        (fun _ => 7)).1, false) ∧
    tryPop (emptyRing 3) = (emptyRing 3, none) :=
  ring_capacity_boundary 3 (by norm_num) [fun _ => 5, fun _ => 6]
    (by simp) (fun _ => 7) (fun _ => 8)

/-- C2 (amended): when the playback callback is invoked with a length
different from the expected byte size (frameCount x 2 channels x
2 bytes) while a device is open, the mismatch is reported to stderr
and the callback simply returns, leaving the state untouched and the
output unwritten; the process does not terminate. -/
theorem callback_mismatch_reports_and_returns (st : AudioState) (len : Int)
    (hdev : st.audio_dev ≠ 0) (hlen : len ≠ expectedLen) :
    audio_callback st len = (st, HostAction.reportMismatch) ∧
    isExit (audio_callback st len).2 = false := by
  have h : audio_callback st len = (st, HostAction.reportMismatch) := by
    simp [audio_callback, hdev, hlen]
  refine ⟨h, by rw [h]; rfl⟩

theorem callback_mismatch_witness :
    (emptyRing 3).audio_dev ≠ 0 ∧ (7 : Int) ≠ expectedLen ∧
    (audio_callback (emptyRing 3) 7 = (emptyRing 3, HostAction.reportMismatch) ∧
      isExit (audio_callback (emptyRing 3) 7).2 = false) :=
  ⟨by decide, by decide,
   callback_mismatch_reports_and_returns (emptyRing 3) 7 (by decide) (by decide)⟩

/-- C2 counterexample: at a concrete open state with mismatched length
0 the callback reports the mismatch but does not terminate the process
(no exit action; the state is returned unchanged), refuting the claim
that the mismatch is fatal and the process terminates. -/
theorem callback_mismatch_cex :
    (audio_callback (emptyRing 3) 0).2 = HostAction.reportMismatch ∧
    isExit (audio_callback (emptyRing 3) 0).2 = false ∧
    (audio_callback (emptyRing 3) 0).1 = emptyRing 3 :=
  ⟨rfl, rfl, rfl⟩

/-- C3 (amended): every callback invocation that passes the guards
(device open and requested length equal to the expected byte size)
fully overwrites the output region before returning: it copies the
popped frame's samples when the ring is non-empty and zero-fills the
region with silence when it is empty. Invocations failing a guard
(closed device or length mismatch) return without writing. -/
theorem callback_overwrites_when_valid (st : AudioState) (len : Int)
    (hdev : st.audio_dev ≠ 0) (hlen : len = expectedLen) :
    ((st.buf_cnt = 0 ∧
        (audio_callback st len).2 = HostAction.writeSilence) ∨
     (st.buf_cnt ≠ 0 ∧
        (audio_callback st len).2 =
          HostAction.writeFrame (st.buffers st.rdidx))) ∧
    overwritesOutput (audio_callback st len).2 = true := by
  by_cases hcnt : st.buf_cnt = 0
  · have h : (audio_callback st len).2 = HostAction.writeSilence := by
      simp [audio_callback, hdev, hlen, tryPop, hcnt]
    exact ⟨Or.inl ⟨hcnt, h⟩, by rw [h]; rfl⟩
  · have h : (audio_callback st len).2 =
        HostAction.writeFrame (st.buffers st.rdidx) := by
      simp [audio_callback, hdev, hlen, tryPop, hcnt]
    exact ⟨Or.inr ⟨hcnt, h⟩, by rw [h]; rfl⟩

theorem callback_overwrites_witness :
    (emptyRing 3).audio_dev ≠ 0 ∧
    (((emptyRing 3).buf_cnt = 0 ∧
        (audio_callback (emptyRing 3) expectedLen).2 =
          HostAction.writeSilence) ∨
     ((emptyRing 3).buf_cnt ≠ 0 ∧
        (audio_callback (emptyRing 3) expectedLen).2 =
          HostAction.writeFrame
            ((emptyRing 3).buffers (emptyRing 3).rdidx))) ∧
    overwritesOutput (audio_callback (emptyRing 3) expectedLen).2 = true :=
  ⟨by decide,
   (callback_overwrites_when_valid (emptyRing 3) expectedLen
      (by decide) rfl).1,
   (callback_overwrites_when_valid (emptyRing 3) expectedLen
      (by decide) rfl).2⟩

/-- C3 counterexample: a callback invocation with the device open but
length 5 (a mismatch) writes nothing to the output region, so the
region keeps whatever unwritten data it held; this refutes the claim
that every invocation fully overwrites the output region. -/
theorem callback_overwrite_cex :
    (audio_callback (emptyRing 3) 5).2 = HostAction.reportMismatch ∧
    overwritesOutput (audio_callback (emptyRing 3) 5).2 = false :=
  ⟨rfl, rfl⟩

/-- C8: initializing with the reserved selector "none" from a closed
state returns immediately with the state untouched (no device opened,
no slots allocated), and afterwards every render call (any tick count)
and every close call is a no-op that changes no state and produces no
buffers (zero triggers). -/
theorem disabled_mode_noop (st : AudioState) (h : st.audio_dev = 0) :
    (∀ (n : Int) (d : Nat),
      audio_init st (some "none") n d = (st, HostAction.earlyReturn)) ∧
    (∀ (x : Nat) (srcs : Nat → Frame × Frame × Frame),
      audio_render st x srcs = (st, 0)) ∧
    audio_close st = st := by
  refine ⟨?_, ?_, ?_⟩
  · intro n d
    simp [audio_init, h]
  · intro x srcs
    simp [audio_render, h]
  · simp [audio_close, h]

theorem disabled_mode_noop_witness :
    initialState.audio_dev = 0 ∧
    audio_init initialState (some "none") 8 1 =
      (initialState, HostAction.earlyReturn) ∧
    audio_render initialState 1000000 srcsZero = (initialState, 0) ∧
    audio_close initialState = initialState :=
  ⟨rfl, (disabled_mode_noop initialState rfl).1 8 1,
   (disabled_mode_noop initialState rfl).2.1 1000000 srcsZero,
   (disabled_mode_noop initialState rfl).2.2⟩

/-! ### Helper lemmas: the clock accumulator and render loop -/

theorem tryPush_clocks (st : AudioState) (f : Frame) :
    (tryPush st f).1.vera_clks = st.vera_clks ∧
    (tryPush st f).1.cpu_clks = st.cpu_clks ∧
    (tryPush st f).1.audio_dev = st.audio_dev ∧
    (tryPush st f).1.num_bufs = st.num_bufs := by
  unfold tryPush
  split <;> simp

theorem audioRenderLoop_base (st : AudioState)
    (srcs : Nat → Frame × Frame × Frame) (k : Nat)
    (h : ¬ 512 * samplesPerBuffer ≤ st.vera_clks) :
    audioRenderLoop st srcs k = (st, 0) := by
  rw [audioRenderLoop.eq_def, dif_neg h]

theorem audioRenderLoop_step (st : AudioState)
    (srcs : Nat → Frame × Frame × Frame) (k : Nat)
    (h : 512 * samplesPerBuffer ≤ st.vera_clks) :
    audioRenderLoop st srcs k =
      ((audioRenderLoop
          (tryPush { st with vera_clks := st.vera_clks - 512 * samplesPerBuffer }
            (mixFrame (srcs k).1 (srcs k).2.1 (srcs k).2.2)).1 srcs (k + 1)).1,
       (audioRenderLoop
          (tryPush { st with vera_clks := st.vera_clks - 512 * samplesPerBuffer }
            (mixFrame (srcs k).1 (srcs k).2.1 (srcs k).2.2)).1 srcs (k + 1)).2 + 1) := by
  rw [audioRenderLoop.eq_def, dif_pos h]

theorem clockConvert_spec (st : AudioState) (x : Nat) :
    (clockConvert st x).cpu_clks ≤ 8 ∧
    25 * (st.cpu_clks + x) + 8 * st.vera_clks =
      25 * (clockConvert st x).cpu_clks + 8 * (clockConvert st x).vera_clks ∧
    (clockConvert st x).audio_dev = st.audio_dev ∧
    (clockConvert st x).num_bufs = st.num_bufs := by
  by_cases hgt : 8 < st.cpu_clks + x
  · simp [clockConvert, if_pos hgt]
    omega
  · simp [clockConvert, if_neg hgt]
    omega

theorem audioRenderLoop_spec (n : Nat) :
    ∀ (st : AudioState) (srcs : Nat → Frame × Frame × Frame) (k : Nat),
    st.vera_clks ≤ n →
    (audioRenderLoop st srcs k).1.vera_clks < 512 * samplesPerBuffer ∧
    st.vera_clks = (audioRenderLoop st srcs k).1.vera_clks +
      512 * samplesPerBuffer * (audioRenderLoop st srcs k).2 ∧
    (audioRenderLoop st srcs k).1.cpu_clks = st.cpu_clks ∧
    (audioRenderLoop st srcs k).1.audio_dev = st.audio_dev ∧
    (audioRenderLoop st srcs k).1.num_bufs = st.num_bufs := by
  induction n with
  | zero =>
    intro st srcs k h
    have hguard : ¬ 512 * samplesPerBuffer ≤ st.vera_clks := by
      simp only [samplesPerBuffer]
      omega
    rw [audioRenderLoop_base st srcs k hguard]
    dsimp only
    refine ⟨?_, by omega, rfl, rfl, rfl⟩
    simp only [samplesPerBuffer]
    omega
  | succ m ih =>
    intro st srcs k h
    by_cases hguard : 512 * samplesPerBuffer ≤ st.vera_clks
    · rw [audioRenderLoop_step st srcs k hguard]
      have hcl := tryPush_clocks
        { st with vera_clks := st.vera_clks - 512 * samplesPerBuffer }
        (mixFrame (srcs k).1 (srcs k).2.1 (srcs k).2.2)
      have hv : (tryPush
          { st with vera_clks := st.vera_clks - 512 * samplesPerBuffer }
          (mixFrame (srcs k).1 (srcs k).2.1 (srcs k).2.2)).1.vera_clks =
          st.vera_clks - 512 * samplesPerBuffer := hcl.1
      have hle2 : (tryPush
          { st with vera_clks := st.vera_clks - 512 * samplesPerBuffer }
          (mixFrame (srcs k).1 (srcs k).2.1 (srcs k).2.2)).1.vera_clks ≤ m := by
        rw [hv]
        simp only [samplesPerBuffer] at hguard ⊢
        omega
      have ihx := ih _ srcs (k + 1) hle2
      dsimp only
      refine ⟨ihx.1, ?_, ?_, ?_, ?_⟩
      · have hrec := ihx.2.1
        rw [hv] at hrec
        simp only [samplesPerBuffer] at hguard hrec ⊢
        omega
      · rw [ihx.2.2.1, hcl.2.1]
      · rw [ihx.2.2.2.1, hcl.2.2.1]
      · rw [ihx.2.2.2.2, hcl.2.2.2]
    · rw [audioRenderLoop_base st srcs k hguard]
      dsimp only
      refine ⟨?_, by omega, rfl, rfl, rfl⟩
      simp only [samplesPerBuffer] at hguard ⊢
      omega

theorem audio_render_spec (st : AudioState) (x : Nat)
    (srcs : Nat → Frame × Frame × Frame) (hdev : ¬ st.audio_dev = 0) :
    (audio_render st x srcs).1.cpu_clks ≤ 8 ∧
    (audio_render st x srcs).1.vera_clks < 512 * samplesPerBuffer ∧
    25 * (st.cpu_clks + x) + 8 * st.vera_clks =
      25 * (audio_render st x srcs).1.cpu_clks +
      8 * (audio_render st x srcs).1.vera_clks +
      8 * (512 * samplesPerBuffer) * (audio_render st x srcs).2 ∧
    (audio_render st x srcs).1.audio_dev = st.audio_dev ∧
    (audio_render st x srcs).1.num_bufs = st.num_bufs := by
  simp only [audio_render, if_neg hdev]
  have hcc := clockConvert_spec st x
  have hl := audioRenderLoop_spec (clockConvert st x).vera_clks
    (clockConvert st x) srcs 0 le_rfl
  obtain ⟨c1, c2, c3, c4⟩ := hcc
  obtain ⟨l1, l2, l3, l4, l5⟩ := hl
  refine ⟨?_, l1, ?_, ?_, ?_⟩
  · rw [l3]
    exact c1
  · simp only [samplesPerBuffer] at c2 l2 ⊢
    omega
  · rw [l4, c3]
  · rw [l5, c4]

theorem runRender_spec (ticks : List Nat) :
    ∀ (st : AudioState) (srcs : Nat → Frame × Frame × Frame),
    ¬ st.audio_dev = 0 → st.cpu_clks ≤ 8 →
    st.vera_clks < 512 * samplesPerBuffer →
    (runRender st srcs ticks).1.cpu_clks ≤ 8 ∧
    (runRender st srcs ticks).1.vera_clks < 512 * samplesPerBuffer ∧
    25 * (st.cpu_clks + ticks.sum) + 8 * st.vera_clks =
      25 * (runRender st srcs ticks).1.cpu_clks +
      8 * (runRender st srcs ticks).1.vera_clks +
      8 * (512 * samplesPerBuffer) * (runRender st srcs ticks).2 ∧
    (runRender st srcs ticks).1.audio_dev = st.audio_dev := by
  induction ticks with
  | nil =>
    intro st srcs hdev hcpu hvera
    refine ⟨hcpu, hvera, ?_, rfl⟩
    show 25 * (st.cpu_clks + List.sum []) + 8 * st.vera_clks =
      25 * st.cpu_clks + 8 * st.vera_clks + 8 * (512 * samplesPerBuffer) * 0
    simp
  | cons t rest ih =>
    intro st srcs hdev hcpu hvera
    have hr := audio_render_spec st t srcs hdev
    have hdev' : ¬ (audio_render st t srcs).1.audio_dev = 0 := by
      rw [hr.2.2.2.1]
      exact hdev
    have ihx := ih (audio_render st t srcs).1 srcs hdev' hr.1 hr.2.1
    simp only [runRender, List.sum_cons]
    refine ⟨ihx.1, ihx.2.1, ?_, by rw [ihx.2.2.2, hr.2.2.2.1]⟩
    have e1 := hr.2.2.1
    have e2 := ihx.2.2.1
    simp only [samplesPerBuffer] at e1 e2 ⊢
    omega

theorem audio_render_open (st : AudioState) (x : Nat)
    (srcs : Nat → Frame × Frame × Frame) (hdev : ¬ st.audio_dev = 0) :
    audio_render st x srcs = audioRenderLoop (clockConvert st x) srcs 0 := by
  simp only [audio_render, if_neg hdev]

/-- C4 (amended): at session init and after every completed render
call, cpuRemainder is a non-negative integer in [0, 8] — it can equal
8, because the code converts only when the accumulator strictly
exceeds 8 — and veraAccumulated is a non-negative integer in
[0, 512 x frames-per-buffer). -/
theorem clock_state_invariant :
    ((emptyRing 3).cpu_clks ≤ 8 ∧
      (emptyRing 3).vera_clks < 512 * samplesPerBuffer) ∧
    ∀ (ticks : List Nat) (srcs : Nat → Frame × Frame × Frame),
      (runRender (emptyRing 3) srcs ticks).1.cpu_clks ≤ 8 ∧
      (runRender (emptyRing 3) srcs ticks).1.vera_clks <
        512 * samplesPerBuffer := by
  refine ⟨⟨by decide, by decide⟩, ?_⟩
  intro ticks srcs
  have h := runRender_spec ticks (emptyRing 3) srcs
    (by decide) (by decide) (by decide)
  exact ⟨h.1, h.2.1⟩

/-- C4 counterexample: a single render call with 8 CPU ticks from a
fresh open session leaves cpuRemainder equal to 8 (the code converts
only when cpu_clks strictly exceeds 8), violating the claimed strict
bound cpuRemainder < 8. -/
theorem clock_state_invariant_cex :
    (audio_render (emptyRing 3) 8 srcsZero).1.cpu_clks = 8 ∧
    ¬ ((audio_render (emptyRing 3) 8 srcsZero).1.cpu_clks < 8) := by
  have h : audio_render (emptyRing 3) 8 srcsZero =
      (clockConvert (emptyRing 3) 8, 0) := by
    rw [audio_render_open _ _ _ (by decide)]
    exact audioRenderLoop_base _ srcsZero 0 (by decide)
  rw [h]
  exact ⟨by decide, by decide⟩

/-- C1 (amended): for every finite sequence of non-negative tick
arguments, the total number of triggers equals
floor(25 * q / threshold) with threshold = 512 x frames-per-buffer,
where q = (total - r) / 8 for the final cpu remainder r; r lies in
[0, 8] and 8 divides total - r. Because the conversion fires only when
the accumulator strictly exceeds 8, r can equal 8, so the count can
fall one buffer short of the exact rational
floor(25 * total / 8 / threshold) for some splits of the same total
(never more: at most 8 CPU ticks stay withheld). -/
theorem render_trigger_total (ticks : List Nat)
    (srcs : Nat → Frame × Frame × Frame) :
    (runRender (emptyRing 3) srcs ticks).1.cpu_clks ≤ 8 ∧
    (runRender (emptyRing 3) srcs ticks).1.cpu_clks ≤ ticks.sum ∧
    (ticks.sum - (runRender (emptyRing 3) srcs ticks).1.cpu_clks) % 8 = 0 ∧
    (runRender (emptyRing 3) srcs ticks).2 =
      25 * ((ticks.sum - (runRender (emptyRing 3) srcs ticks).1.cpu_clks) / 8)
        / (512 * samplesPerBuffer) := by
  have h := runRender_spec ticks (emptyRing 3) srcs
    (by decide) (by decide) (by decide)
  obtain ⟨h1, h2, h3, h4⟩ := h
  have e0 : (emptyRing 3).cpu_clks = 0 := rfl
  have e1 : (emptyRing 3).vera_clks = 0 := rfl
  rw [e0, e1] at h3
  simp only [samplesPerBuffer] at h2 h3 ⊢
  refine ⟨h1, ?_, ?_, ?_⟩ <;> omega

/-- C1 counterexample: the same total of 41944 CPU ticks gives 1
trigger when advanced in one render call but 0 triggers when split
into the call sequence 41936 then 8 (the final 8 ticks stay
unconverted because the code requires cpu_clks > 8 strictly), while
the exact rational count floor(25 * 41944 / 8 / threshold) is 1 - so
the claimed split-independent exact equality fails. -/
theorem render_trigger_total_cex :
    (audio_render (emptyRing 3) 41936 srcsZero).2 = 0 ∧
    (audio_render (audio_render (emptyRing 3) 41936 srcsZero).1 8 srcsZero).2 = 0 ∧
    25 * ((41936 + 8) : Nat) / 8 / (512 * samplesPerBuffer) = 1 ∧
    (audio_render (emptyRing 3) 41944 srcsZero).2 = 1 := by
  have h1 : audio_render (emptyRing 3) 41936 srcsZero =
      (clockConvert (emptyRing 3) 41936, 0) := by
    rw [audio_render_open _ _ _ (by decide)]
    exact audioRenderLoop_base _ srcsZero 0 (by decide)
  have hfst : (audio_render (emptyRing 3) 41936 srcsZero).1 =
      clockConvert (emptyRing 3) 41936 := congrArg Prod.fst h1
  have h2 : audio_render (clockConvert (emptyRing 3) 41936) 8 srcsZero =
      (clockConvert (clockConvert (emptyRing 3) 41936) 8, 0) := by
    rw [audio_render_open _ _ _ (by decide)]
    exact audioRenderLoop_base _ srcsZero 0 (by decide)
  have hstep := audioRenderLoop_step (clockConvert (emptyRing 3) 41944)
    srcsZero 0 (by decide)
  have hb := audioRenderLoop_base
    (tryPush
      { clockConvert (emptyRing 3) 41944 with
          vera_clks := (clockConvert (emptyRing 3) 41944).vera_clks -
            512 * samplesPerBuffer }
      (mixFrame (srcsZero 0).1 (srcsZero 0).2.1 (srcsZero 0).2.2)).1
    srcsZero 1 (by decide)
  have h3 : audio_render (emptyRing 3) 41944 srcsZero =
      ((tryPush
        { clockConvert (emptyRing 3) 41944 with
            vera_clks := (clockConvert (emptyRing 3) 41944).vera_clks -
              512 * samplesPerBuffer }
        (mixFrame (srcsZero 0).1 (srcsZero 0).2.1 (srcsZero 0).2.2)).1, 1) := by
    rw [audio_render_open _ _ _ (by decide), hstep, hb]
  refine ⟨?_, ?_, by norm_num [samplesPerBuffer], ?_⟩
  · rw [h1]
  · rw [hfst, h2]
  · rw [h3]
